import Mathlib

/-!
Shallow embedding of `src/bot.py` (a Telegram calorie-analysis bot):
the per-user daily quota tracker (`get_user_data`, `can_make_request`,
the inline usage-recording increment of `handle_photo`), the Gemini
model-fallback analyzer (`analyze_with_gemini`), the photo handler
(`handle_photo`) and the statistics view (`stats`).

Dates are modelled as abstract day numbers (`Nat`); `datetime.now().date()`
becomes an explicit `today : Nat` parameter.  The module-level dict
`user_data` becomes an explicit store `Nat → Option UserData` threaded
through every function.  Network and Telegram side effects are modelled by
an environment of oracles (`GeminiEnv`, `PhotoEnv`) giving the outcome of
each external call (`Except` mirrors raise/return), and the handler
additionally returns the trace of observable events it performed.
-/

namespace Bot

/-- Per-user quota record: the dict created by `get_user_data`
(`bot.py` lines 40-44). -/
structure UserData where
  requests_today : Nat
  last_request_date : Option Nat
  subscription_active : Bool
deriving Repr, DecidableEq

/-- The fresh record inserted on first access (`bot.py` lines 40-44). -/
def freshUser : UserData :=
  { requests_today := 0, last_request_date := none, subscription_active := false }

/-- The module-level `user_data` dict: user id to quota record. -/
abbrev Store : Type := Nat → Option UserData

/-- Dict update `user_data[user_id] = u`. -/
def Store.insert (s : Store) (uid : Nat) (u : UserData) : Store :=
  fun k => if k = uid then some u else s k

/-- The empty initial `user_data = {}` (`bot.py` line 36). -/
def emptyStore : Store := fun _ => none

/-- `get_user_data` (`bot.py` lines 38-45): lazily create the record,
return it together with the (possibly extended) store. -/
def get_user_data (s : Store) (uid : Nat) : UserData × Store :=
  match s uid with
  | some u => (u, s)
  | none => (freshUser, Store.insert s uid freshUser)

/-- The fixed limit-exhausted denial message (`bot.py` lines 61-63). -/
def limitMsg : String :=
  "❌ Вы исчерпали лимит бесплатных запросов на сегодня (3/3)\n\n💎 Приобретите подписку для неограниченного анализа!"

/-- The date-normalization step of `can_make_request` (`bot.py` lines 51-53):
if the stored date differs from today, reset the counter and store today. -/
def normalize (u : UserData) (today : Nat) : UserData :=
  if u.last_request_date ≠ some today then
    { u with requests_today := 0, last_request_date := some today }
  else u

/-- `can_make_request` (`bot.py` lines 47-63).  Returns the
`(allowed, reason)` pair and the updated store. -/
def can_make_request (s : Store) (today : Nat) (uid : Nat) :
    (Bool × String) × Store :=
  let gr := get_user_data s uid
  let user := normalize gr.1 today
  let s1 :=
    if gr.1.last_request_date ≠ some today then Store.insert gr.2 uid user
    else gr.2
  if user.subscription_active then ((true, ""), s1)
  else if user.requests_today < 3 then ((true, ""), s1)
  else ((false, limitMsg), s1)

/-- The inline usage-recording increment of `handle_photo`
(`bot.py` lines 148-149): look up (or create) the record and add 1 to
`requests_today`.  Returns the updated record and store. -/
def record_usage (s : Store) (uid : Nat) : UserData × Store :=
  let gr := get_user_data s uid
  let u := { gr.1 with requests_today := gr.1.requests_today + 1 }
  (u, Store.insert gr.2 uid u)

/-- The ordered candidate model list (`bot.py` lines 72-77). -/
def models_to_try : List String :=
  ["gemini-1.0-pro-vision", "gemini-pro-vision", "gemini-1.5-flash", "gemini-1.0-pro"]

/-- The fixed all-candidates-exhausted message (`bot.py` line 112). -/
def allModelsUnavailableMsg : String :=
  "❌ Все модели Gemini API недоступны. Проверьте квоты и настройки billing."

/-- The fixed marker prepended to the caught exception's message on the
top-level error path of `analyze_with_gemini` (`bot.py` line 116). -/
def gemini_error_marker : String := "❌ Ошибка Gemini API: "

/-- Oracle for the external effects of one `analyze_with_gemini` call:
the outcome of decoding the input bytes (`Image.open`), and for each model
name the outcome of `model.generate_content` (`.ok` response text, or
`.error` exception message). -/
structure GeminiEnv where
  decodeImage : Except String Unit
  callModel : String → Except String String
deriving Inhabited

/-- The per-candidate fallback loop of `analyze_with_gemini`
(`bot.py` lines 79-112): try each model in order, swallowing per-candidate
exceptions; after the loop return the fixed exhaustion message.  The second
component records which candidates were attempted, in order. -/
def tryModels (call : String → Except String String) :
    List String → String × List String
  | [] => (allModelsUnavailableMsg, [])
  | m :: rest =>
    match call m with
    | .ok t => (t, [m])
    | .error _ =>
      let r := tryModels call rest
      (r.1, m :: r.2)

/-- `analyze_with_gemini` (`bot.py` lines 65-116): decode the image, then
run the fallback loop; any exception not caught by the loop (the decode
failure) is caught at the top level and turned into a marker-prefixed
error string.  Returns the result text and the list of attempted
candidates. -/
def analyze_with_gemini (env : GeminiEnv) : String × List String :=
  match env.decodeImage with
  | .ok _ => tryModels env.callModel models_to_try
  | .error e => (gemini_error_marker ++ e, [])

/-- Observable events of one `handle_photo` run: a successfully sent
reply text, a model-call attempt, the attachment fetch, the counter
increment, and the deletion of the processing placeholder. -/
inductive Ev where
  | sent (text : String)
  | modelCall (name : String)
  | fetched
  | incr
  | deleted
deriving Repr, DecidableEq

/-- Oracle for the external effects of one `handle_photo` run: the Gemini
oracles, the outcome of fetching the photo bytes, of deleting the
processing message, and of `reply_text` for each text. -/
structure PhotoEnv where
  gemini : GeminiEnv
  fetchPhoto : Except String Unit
  deleteMsg : Except String Unit
  reply : String → Except String Unit

/-- Result of one `handle_photo` run: `.ok ()` if the handler returned
normally, `.error e` if an exception escaped it; the final store; and the
trace of observable events. -/
structure PhotoResult where
  result : Except String Unit
  store : Store
  trace : List Ev

/-- The "processing" placeholder text (`bot.py` lines 134-135). -/
def processingText : String :=
  "🔍 *Анализирую изображение...*\n\nОпределяю блюдо и рассчитываю калории... ⏳"

/-- The usage footer appended to the analysis (`bot.py` lines 152-154). -/
def requestsInfo (n : Nat) (sub : Bool) : String :=
  let base := "\n\n📊 Использовано запросов сегодня: " ++ toString n ++ "/3"
  if n ≥ 3 && !sub then
    base ++ "\n❌ Лимит исчерпан - приобретите подписку для продолжения"
  else base

/-- The generic error reply of the photo handler (`bot.py` line 173). -/
def genericErrorMsg : String :=
  "❌ Произошла ошибка при обработке фото. Попробуйте еще раз."

/-- The fixed truncation suffix (`bot.py` line 163). -/
def truncSuffix : String := "\n\n... (сообщение обрезано)"

/-- The length-limiting step of `handle_photo` (`bot.py` lines 162-163):
Python's `full_response[:4000]` takes the first 4000 code points, modelled
on `String.data`. -/
def truncateResponse (full : String) : String :=
  if full.length > 4000 then String.mk (full.data.take 4000) ++ truncSuffix
  else full

/-- The `except` block of `handle_photo` (`bot.py` lines 167-173): try to
delete the processing message (its own failure swallowed), then send the
generic error reply — whose failure escapes the handler. -/
def exceptPath (env : PhotoEnv) (s : Store) (tr : List Ev) : PhotoResult :=
  let tr2 :=
    match env.deleteMsg with
    | .ok _ => tr ++ [Ev.deleted]
    | .error _ => tr
  match env.reply genericErrorMsg with
  | .ok _ => ⟨Except.ok (), s, tr2 ++ [Ev.sent genericErrorMsg]⟩
  | .error e => ⟨Except.error e, s, tr2⟩

/-- `handle_photo` (`bot.py` lines 118-173): quota check; on denial reply
with the quota message and return; otherwise send the processing
placeholder, then inside `try`: fetch the photo bytes, analyze, increment
the counter, build the footer, delete the placeholder, truncate, and send
the result.  Any exception in the `try` block goes to `exceptPath`; the
replies outside the `try` (denial, placeholder) escape on failure. -/
def handle_photo (env : PhotoEnv) (today uid : Nat) (s : Store) : PhotoResult :=
  let cr := can_make_request s today uid
  let s1 := cr.2
  if cr.1.1 = false then
    match env.reply cr.1.2 with
    | .ok _ => ⟨Except.ok (), s1, [Ev.sent cr.1.2]⟩
    | .error e => ⟨Except.error e, s1, []⟩
  else
    match env.reply processingText with
    | .error e => ⟨Except.error e, s1, []⟩
    | .ok _ =>
      let tr0 : List Ev := [Ev.sent processingText]
      match env.fetchPhoto with
      | .error _ => exceptPath env s1 tr0
      | .ok _ =>
        let ar := analyze_with_gemini env.gemini
        let tr1 := tr0 ++ [Ev.fetched] ++ ar.2.map Ev.modelCall
        let ru := record_usage s1 uid
        let s2 := ru.2
        let tr2 := tr1 ++ [Ev.incr]
        let info := requestsInfo ru.1.requests_today ru.1.subscription_active
        let full := ar.1 ++ info
        match env.deleteMsg with
        | .error _ => exceptPath env s2 tr2
        | .ok _ =>
          let tr3 := tr2 ++ [Ev.deleted]
          let out := truncateResponse full
          match env.reply out with
          | .error _ => exceptPath env s2 tr3
          | .ok _ => ⟨Except.ok (), s2, tr3 ++ [Ev.sent out]⟩

/-- The full response text a successful `handle_photo` run sends before
truncation (`bot.py` lines 151-156): analysis text plus usage footer
computed from the just-incremented record. -/
def fullResponseOf (env : PhotoEnv) (today uid : Nat) (s : Store) : String :=
  let s1 := (can_make_request s today uid).2
  let ru := record_usage s1 uid
  (analyze_with_gemini env.gemini).1 ++
    requestsInfo ru.1.requests_today ru.1.subscription_active

/-- Concrete oracle: decoding succeeds, the first candidate fails with a
quota error, every later candidate answers. -/
def envTwoStage : GeminiEnv :=
  ⟨Except.ok (),
   fun m => if m = "gemini-1.0-pro-vision" then Except.error "429 quota"
            else Except.ok "Ответ второй модели"⟩

/-- Concrete oracle: the image bytes do not decode. -/
def envDecodeFail : GeminiEnv :=
  ⟨Except.error "cannot identify image file", fun _ => Except.ok "ответ"⟩

/-- Concrete oracle: decoding succeeds, every candidate fails. -/
def envAllFail : GeminiEnv :=
  ⟨Except.ok (), fun _ => Except.error "503 unavailable"⟩

/-- Concrete photo oracle: every external call succeeds and the analysis
text is `"Анализ"`. -/
def envOk : PhotoEnv :=
  ⟨⟨Except.ok (), fun _ => Except.ok "Анализ"⟩,
   Except.ok (), Except.ok (), fun _ => Except.ok ()⟩

/-- Concrete photo oracle: every `reply_text` call fails. -/
def envReplyFail : PhotoEnv :=
  ⟨⟨Except.ok (), fun _ => Except.ok "Анализ"⟩,
   Except.ok (), Except.ok (), fun _ => Except.error "Timed out"⟩

/-- Concrete photo oracle: replies succeed but the attachment fetch
fails. -/
def envFetchFail : PhotoEnv :=
  ⟨⟨Except.ok (), fun _ => Except.ok "Анализ"⟩,
   Except.error "network down", Except.ok (), fun _ => Except.ok ()⟩

/-- The `stats` view (`bot.py` lines 206-230): look up (or create) the
record and render the statistics text from it — no date normalization.
Returns the text and the (possibly extended) store. -/
def stats (s : Store) (uid : Nat) (first_name : String) : String × Store :=
  let gr := get_user_data s uid
  let u := gr.1
  let txt :=
    "\n📊 **Ваша статистика**\n\n👤 Пользователь: " ++ first_name ++
    "\n📅 Запросов сегодня: " ++ toString u.requests_today ++
    "/3\n💎 Статус подписки: " ++
    (if u.subscription_active then "Активна ✅" else "Неактивна ❌") ++
    "\n\n" ++
    (if u.subscription_active then "🎉 У вас неограниченный доступ!"
     else "💎 Приобретите подписку для неограниченного анализа!") ++
    "\n    "
  (txt, gr.2)

/-! Helper lemmas about the quota tracker. -/

theorem get_user_data_found {s : Store} {uid : Nat} {u : UserData}
    (h : s uid = some u) : get_user_data s uid = (u, s) := by
  simp [get_user_data, h]

theorem get_user_data_lookup (s : Store) (uid : Nat) :
    (get_user_data s uid).2 uid = some (get_user_data s uid).1 := by
  unfold get_user_data
  cases h : s uid with
  | some u => simpa using h
  | none => simp [Store.insert]

theorem can_make_request_fst (s : Store) (today uid : Nat) :
    (can_make_request s today uid).1 =
      if (normalize (get_user_data s uid).1 today).subscription_active = true ∨
         (normalize (get_user_data s uid).1 today).requests_today < 3
      then (true, "") else (false, limitMsg) := by
  unfold can_make_request
  by_cases h1 : (normalize (get_user_data s uid).1 today).subscription_active = true <;>
    by_cases h2 : (normalize (get_user_data s uid).1 today).requests_today < 3 <;>
    simp [h1, h2]

theorem can_make_request_snd (s : Store) (today uid : Nat) :
    (can_make_request s today uid).2 =
      if (get_user_data s uid).1.last_request_date ≠ some today then
        Store.insert (get_user_data s uid).2 uid
          (normalize (get_user_data s uid).1 today)
      else (get_user_data s uid).2 := by
  by_cases hd : (get_user_data s uid).1.last_request_date ≠ some today <;>
  by_cases h1 : (normalize (get_user_data s uid).1 today).subscription_active = true <;>
  by_cases h2 : (normalize (get_user_data s uid).1 today).requests_today < 3 <;>
  simp [can_make_request, hd, h1, h2]

theorem can_make_request_lookup (s : Store) (today uid : Nat) :
    (can_make_request s today uid).2 uid =
      some (normalize (get_user_data s uid).1 today) := by
  rw [can_make_request_snd]
  split
  case isTrue hd => simp [Store.insert]
  case isFalse hd =>
    have hn : normalize (get_user_data s uid).1 today = (get_user_data s uid).1 := by
      simp [normalize, not_not.mp hd]
    rw [hn]
    exact get_user_data_lookup s uid

/-- C1: after date normalization, `can_make_request` returns
`(true, "")` exactly when the user's subscription is active or the
normalized counter is below 3, and `(false, limitMsg)` otherwise; the
stored record after the call is the normalized one. -/
theorem c1_quota_decision (s : Store) (today uid : Nat) :
    (can_make_request s today uid).1 =
      (if (normalize (get_user_data s uid).1 today).subscription_active = true ∨
          (normalize (get_user_data s uid).1 today).requests_today < 3
       then (true, "") else (false, limitMsg)) ∧
    (can_make_request s today uid).2 uid =
      some (normalize (get_user_data s uid).1 today) :=
  ⟨can_make_request_fst s today uid, can_make_request_lookup s today uid⟩

/-- Closed instance of `c1_quota_decision` at a concrete store. -/
theorem c1_quota_decision_witness :
    (can_make_request emptyStore 3 1).2 1 =
      some (normalize (get_user_data emptyStore 1).1 3) :=
  (c1_quota_decision emptyStore 3 1).2

/-- C2: when the stored date differs from today (including a fresh record
with no stored date), `can_make_request` stores a record with the counter
reset to 0 and the date set to today, and allows the request; e2e, a
photo on day 0 followed by a photo on day 1 is allowed and ends with a
count of 1, not 2. -/
theorem c2_new_day_reset (s : Store) (today uid : Nat)
    (h : (get_user_data s uid).1.last_request_date ≠ some today) :
    (can_make_request s today uid).2 uid =
      some { requests_today := 0, last_request_date := some today,
             subscription_active := (get_user_data s uid).1.subscription_active } ∧
    (can_make_request s today uid).1 = (true, "") ∧
    ((handle_photo envOk 0 7 emptyStore).store 7 = some ⟨1, some 0, false⟩ ∧
     (handle_photo envOk 1 7 (handle_photo envOk 0 7 emptyStore).store).result =
       Except.ok () ∧
     (handle_photo envOk 1 7 (handle_photo envOk 0 7 emptyStore).store).store 7 =
       some ⟨1, some 1, false⟩) := by
  have hn : normalize (get_user_data s uid).1 today =
      { requests_today := 0, last_request_date := some today,
        subscription_active := (get_user_data s uid).1.subscription_active } := by
    simp [normalize, h]
  refine ⟨?_, ?_, ?_⟩
  · rw [can_make_request_lookup, hn]
  · rw [can_make_request_fst, hn]
    simp
  · exact ⟨by decide, rfl, by decide⟩

/-- Closed instance of `c2_new_day_reset` at a concrete fresh store. -/
theorem c2_new_day_reset_witness :
    (can_make_request emptyStore 5 0).2 0 =
      some { requests_today := 0, last_request_date := some 5,
             subscription_active := false } :=
  (c2_new_day_reset emptyStore 5 0 (by decide)).1

theorem tryModels_first_ok (call : String → Except String String) :
    ∀ (ms : List String) (i : Nat) (hi : i < ms.length) (t : String),
      (∀ j (hj : j < i), ∃ e, call (ms.get ⟨j, Nat.lt_trans hj hi⟩) = Except.error e) →
      call (ms.get ⟨i, hi⟩) = Except.ok t →
      tryModels call ms = (t, ms.take (i + 1))
  | [], i, hi, t => absurd hi (by simp)
  | m :: rest, 0, hi, t => by
    intro _ hok
    simp only [List.get] at hok
    simp [tryModels, hok]
  | m :: rest, i + 1, hi, t => by
    intro hfail hok
    obtain ⟨e, he⟩ := hfail 0 (Nat.succ_pos i)
    simp only [List.get] at he hok
    have ih := tryModels_first_ok call rest i (Nat.lt_of_succ_lt_succ hi) t
      (fun j hj => hfail (j + 1) (Nat.succ_lt_succ hj)) hok
    simp [tryModels, he, ih]

/-- C3: if the image decodes and candidate `i` of the fixed list is the
first whose call succeeds, `analyze_with_gemini` returns that candidate's
response text verbatim and attempts exactly the first `i + 1` candidates
in list order. -/
theorem c3_fallback_order (env : GeminiEnv) (i : Nat)
    (hi : i < models_to_try.length) (t : String)
    (hdec : env.decodeImage = Except.ok ())
    (hfail : ∀ j (hj : j < i),
      ∃ e, env.callModel (models_to_try.get ⟨j, Nat.lt_trans hj hi⟩) = Except.error e)
    (hok : env.callModel (models_to_try.get ⟨i, hi⟩) = Except.ok t) :
    analyze_with_gemini env = (t, models_to_try.take (i + 1)) := by
  unfold analyze_with_gemini
  rw [hdec]
  exact tryModels_first_ok env.callModel models_to_try i hi t hfail hok

/-- Closed instance of `c3_fallback_order`: candidate 1 fails, candidate 2
succeeds, candidates 3 and 4 are never attempted. -/
theorem c3_fallback_order_witness :
    analyze_with_gemini envTwoStage =
      ("Ответ второй модели", ["gemini-1.0-pro-vision", "gemini-pro-vision"]) :=
  c3_fallback_order envTwoStage 1 (by decide) "Ответ второй модели" rfl
    (fun j hj => by
      have hj0 : j = 0 := by omega
      subst hj0
      exact ⟨"429 quota", rfl⟩)
    rfl

theorem tryModels_all_error (call : String → Except String String) :
    ∀ ms : List String, (∀ m ∈ ms, ∃ e, call m = Except.error e) →
      tryModels call ms = (allModelsUnavailableMsg, ms)
  | [], _ => rfl
  | m :: rest, h => by
    obtain ⟨e, he⟩ := h m (by simp)
    have ih := tryModels_all_error call rest (fun x hx => h x (by simp [hx]))
    simp [tryModels, he, ih]

/-- C4: if the image decodes but every candidate's call fails,
`analyze_with_gemini` returns the fixed all-models-unavailable string,
which differs from every string of the decode-failure path. -/
theorem c4_all_models_fail (env : GeminiEnv)
    (hdec : env.decodeImage = Except.ok ())
    (hfail : ∀ m ∈ models_to_try, ∃ e, env.callModel m = Except.error e) :
    (analyze_with_gemini env).1 = allModelsUnavailableMsg ∧
    (∀ e, allModelsUnavailableMsg ≠ gemini_error_marker ++ e) := by
  constructor
  · unfold analyze_with_gemini
    rw [hdec, tryModels_all_error env.callModel models_to_try hfail]
  · intro e h
    have hd : allModelsUnavailableMsg.data =
        gemini_error_marker.data ++ e.data := by
      have := congrArg String.data h
      rwa [String.data_append] at this
    have ht := congrArg (List.take gemini_error_marker.data.length) hd
    rw [List.take_left] at ht
    exact absurd ht (by decide)

/-- Closed instance of `c4_all_models_fail` with every candidate failing. -/
theorem c4_all_models_fail_witness :
    (analyze_with_gemini envAllFail).1 = allModelsUnavailableMsg :=
  (c4_all_models_fail envAllFail rfl (fun _ _ => ⟨"503 unavailable", rfl⟩)).1

/-- C5: if decoding the input bytes fails with message `e`,
`analyze_with_gemini` returns the marker-prefixed error string embedding
`e` (and, the embedding being a total function, raises nothing). -/
theorem c5_decode_error (env : GeminiEnv) (e : String)
    (h : env.decodeImage = Except.error e) :
    analyze_with_gemini env = (gemini_error_marker ++ e, []) := by
  unfold analyze_with_gemini
  rw [h]

/-- Closed instance of `c5_decode_error` on undecodable bytes. -/
theorem c5_decode_error_witness :
    analyze_with_gemini envDecodeFail =
      (gemini_error_marker ++ "cannot identify image file", []) :=
  c5_decode_error envDecodeFail "cannot identify image file" rfl

/-- C7: a photo event from a non-subscribed user whose same-day counter is
already 3 is denied: the handler attempts exactly the quota denial reply,
makes no model call, and leaves the store — in particular the user's
record — exactly as it was. -/
theorem c7_denied_unchanged (env : PhotoEnv) (today uid : Nat) (s : Store)
    (h : s uid = some ⟨3, some today, false⟩) :
    (handle_photo env today uid s).store = s ∧
    (handle_photo env today uid s).trace =
      (match env.reply limitMsg with
       | .ok _ => [Ev.sent limitMsg]
       | .error _ => ([] : List Ev)) ∧
    (∀ m, Ev.modelCall m ∉ (handle_photo env today uid s).trace) ∧
    (handle_photo env today uid s).store uid = some ⟨3, some today, false⟩ := by
  have hc : can_make_request s today uid = ((false, limitMsg), s) := by
    simp [can_make_request, get_user_data, normalize, h]
  cases hr : env.reply limitMsg with
  | ok u =>
    cases u
    have hmain : handle_photo env today uid s =
        ⟨Except.ok (), s, [Ev.sent limitMsg]⟩ := by
      simp [handle_photo, hc, hr]
    rw [hmain]
    simp [hr, h]
  | error e =>
    have hmain : handle_photo env today uid s = ⟨Except.error e, s, []⟩ := by
      simp [handle_photo, hc, hr]
    rw [hmain]
    simp [hr, h]

/-- Closed instance of `c7_denied_unchanged` at an exhausted record. -/
theorem c7_denied_unchanged_witness :
    (handle_photo envOk 4 9 (Store.insert emptyStore 9 ⟨3, some 4, false⟩)).store 9 =
      some ⟨3, some 4, false⟩ :=
  (c7_denied_unchanged envOk 4 9 (Store.insert emptyStore 9 ⟨3, some 4, false⟩)
    (by decide)).2.2.2

/-- Counterexample to C8 as stated: the `stats` view touches a record whose
stored date (day 0) lies strictly before the current day, yet neither
resets the shown counter to 0 nor the stored record — the counter stays
3 (`stats` reads no clock at all, so this holds on every later day). -/
theorem c8_counterexample :
    (stats (Store.insert emptyStore 7 ⟨3, some 0, false⟩) 7 "U").2 7 =
      some ⟨3, some 0, false⟩ ∧
    (get_user_data (Store.insert emptyStore 7 ⟨3, some 0, false⟩) 7).1.requests_today
      = 3 := by
  constructor
  · simp [stats, get_user_data, Store.insert]
  · simp [get_user_data, Store.insert]

/-- C8 amended: only `can_make_request` performs the new-day reset; the
lazy lookup, the usage-recording increment and the statistics view leave
`requests_today` un-reset when they touch a record whose stored date
differs from today. -/
theorem c8_amended_only_quota_check_resets (s : Store) (uid today : Nat)
    (u : UserData) (nm : String)
    (hs : s uid = some u) (hd : u.last_request_date ≠ some today) :
    (get_user_data s uid).1.requests_today = u.requests_today ∧
    (record_usage s uid).1.requests_today = u.requests_today + 1 ∧
    (stats s uid nm).2 uid = some u ∧
    (can_make_request s today uid).2 uid =
      some { requests_today := 0, last_request_date := some today,
             subscription_active := u.subscription_active } := by
  have hg : get_user_data s uid = (u, s) := get_user_data_found hs
  refine ⟨by rw [hg], by simp [record_usage, hg], by simp [stats, hg, hs], ?_⟩
  rw [can_make_request_lookup, hg]
  simp [normalize, hd]

/-- Closed instance of `c8_amended_only_quota_check_resets`. -/
theorem c8_amended_witness :
    (Bot.record_usage (Store.insert emptyStore 7 ⟨3, some 0, false⟩) 7).1.requests_today
      = 4 :=
  (c8_amended_only_quota_check_resets (Store.insert emptyStore 7 ⟨3, some 0, false⟩)
    7 1 ⟨3, some 0, false⟩ "U" (by decide) (by decide)).2.1

/-! Helper lemmas about traces and the `except` path. -/

theorem getLast_append_singleton {α : Type} (l : List α) (a : α) :
    (l ++ [a]).getLast? = some a := by
  rw [List.getLast?_append_of_ne_nil l (by simp)]
  rfl

theorem eq_append_cons_unique {α : Type} {a : α} :
    ∀ (A : List α) {B l1 l2 : List α}, a ∉ A → a ∉ B →
      A ++ a :: B = l1 ++ a :: l2 → l2 = B
  | [], B, l1, l2, _, hB, h => by
    cases l1 with
    | nil => exact (by simpa using h : B = l2).symm
    | cons x t =>
      exfalso
      have h' : a = x ∧ B = t ++ a :: l2 := by simpa using h
      exact hB (h'.2 ▸ (by simp : a ∈ t ++ a :: l2))
  | x :: A', B, l1, l2, hA, hB, h => by
    cases l1 with
    | nil =>
      exfalso
      have h' : x = a ∧ A' ++ a :: B = l2 := by simpa using h
      exact hA (by simp [h'.1])
    | cons y t =>
      have h' : x = y ∧ A' ++ a :: B = t ++ a :: l2 := by simpa using h
      exact eq_append_cons_unique A' (fun hm => hA (by simp [hm])) hB h'.2

theorem exceptPath_store (env : PhotoEnv) (s : Store) (tr : List Ev) :
    (exceptPath env s tr).store = s := by
  unfold exceptPath
  cases hd : env.deleteMsg <;> cases hg : env.reply genericErrorMsg <;> simp [hd, hg]

theorem exceptPath_trace (env : PhotoEnv) (s : Store) (tr : List Ev) :
    ∃ post, (exceptPath env s tr).trace = tr ++ post ∧
      Ev.incr ∉ post ∧ (∀ m, Ev.modelCall m ∉ post) := by
  unfold exceptPath
  cases hd : env.deleteMsg <;> cases hg : env.reply genericErrorMsg
  · exact ⟨[], by simp [hd, hg], by simp, by simp⟩
  · exact ⟨[Ev.sent genericErrorMsg], by simp [hd, hg], by simp, by simp⟩
  · exact ⟨[Ev.deleted], by simp [hd, hg], by simp, by simp⟩
  · exact ⟨[Ev.deleted, Ev.sent genericErrorMsg], by simp [hd, hg], by simp, by simp⟩

theorem exceptPath_replies_ok (env : PhotoEnv) (s : Store) (tr : List Ev)
    (hg : env.reply genericErrorMsg = Except.ok ()) :
    (exceptPath env s tr).result = Except.ok () ∧
    ∃ m, (exceptPath env s tr).trace.getLast? = some (Ev.sent m) := by
  unfold exceptPath
  cases hd : env.deleteMsg <;>
    simp [hd, hg, getLast_append_singleton]

theorem no_incr_split {tr : List Ev} (h : Ev.incr ∉ tr) :
    ∀ l1 l2, tr = l1 ++ Ev.incr :: l2 → ∀ m, Ev.modelCall m ∉ l2 := by
  intro l1 l2 hs m _
  apply absurd _ h
  rw [hs]
  simp

theorem shape_split {L R tr : List Ev} (htr : tr = L ++ Ev.incr :: R)
    (hL : Ev.incr ∉ L) (hR : Ev.incr ∉ R) (hRm : ∀ m, Ev.modelCall m ∉ R) :
    (∃ l1 l2, tr = l1 ++ Ev.incr :: l2 ∧ Ev.incr ∉ l1 ∧ Ev.incr ∉ l2) ∧
    (∀ l1 l2, tr = l1 ++ Ev.incr :: l2 → ∀ m, Ev.modelCall m ∉ l2) := by
  refine ⟨⟨L, R, htr, hL, hR⟩, ?_⟩
  intro l1 l2 hs m
  have h2 : l2 = R := eq_append_cons_unique L hL hR (htr.symm.trans hs)
  exact h2 ▸ hRm m

theorem handle_photo_store_invoked (env : PhotoEnv) (today uid : Nat) (s : Store)
    (hcan : (can_make_request s today uid).1.1 = true)
    (hp : env.reply processingText = Except.ok ())
    (hf : env.fetchPhoto = Except.ok ()) :
    (handle_photo env today uid s).store =
      (record_usage (can_make_request s today uid).2 uid).2 := by
  unfold handle_photo
  simp [hcan, hp, hf]
  split
  · exact exceptPath_store _ _ _
  · split
    · exact exceptPath_store _ _ _
    · rfl

theorem handle_photo_trace_invoked (env : PhotoEnv) (today uid : Nat) (s : Store)
    (hcan : (can_make_request s today uid).1.1 = true)
    (hp : env.reply processingText = Except.ok ())
    (hf : env.fetchPhoto = Except.ok ()) :
    ∃ R, (handle_photo env today uid s).trace =
        (Ev.sent processingText :: Ev.fetched ::
          (analyze_with_gemini env.gemini).2.map Ev.modelCall) ++ Ev.incr :: R ∧
      Ev.incr ∉ R ∧ (∀ m, Ev.modelCall m ∉ R) := by
  unfold handle_photo
  simp [hcan, hp, hf]
  split
  · obtain ⟨post, htr, hpost, hpostm⟩ := exceptPath_trace env
      (record_usage (can_make_request s today uid).2 uid).2
      (Ev.sent processingText :: Ev.fetched ::
        (List.map Ev.modelCall (analyze_with_gemini env.gemini).2 ++ [Ev.incr]))
    refine ⟨post, ?_, hpost, hpostm⟩
    rw [htr]
    simp
  · split
    · obtain ⟨post, htr, hpost, hpostm⟩ := exceptPath_trace env
        (record_usage (can_make_request s today uid).2 uid).2
        (Ev.sent processingText :: Ev.fetched ::
          (List.map Ev.modelCall (analyze_with_gemini env.gemini).2 ++
            [Ev.incr, Ev.deleted]))
      refine ⟨Ev.deleted :: post, ?_, by simpa using hpost,
        fun m => by simpa using hpostm m⟩
      rw [htr]
      simp
    · exact ⟨[Ev.deleted, Ev.sent (truncateResponse
        ((analyze_with_gemini env.gemini).1 ++
          requestsInfo (record_usage (can_make_request s today uid).2 uid).1.requests_today
            (record_usage (can_make_request s today uid).2 uid).1.subscription_active))],
        by simp, by simp, by simp⟩

theorem handle_photo_not_invoked (env : PhotoEnv) (today uid : Nat) (s : Store)
    (h : (can_make_request s today uid).1.1 = false ∨
         (∃ e, env.reply processingText = Except.error e) ∨
         (∃ e, env.fetchPhoto = Except.error e)) :
    (handle_photo env today uid s).store = (can_make_request s today uid).2 ∧
    Ev.incr ∉ (handle_photo env today uid s).trace := by
  by_cases hcan : (can_make_request s today uid).1.1 = false
  · unfold handle_photo
    rcases hr : env.reply (can_make_request s today uid).1.2 with e' | u
    · simp [hcan, hr]
    · cases u
      simp [hcan, hr]
  · have htrue : (can_make_request s today uid).1.1 = true := by
      cases hb : (can_make_request s today uid).1.1
      · exact absurd hb hcan
      · rfl
    rcases h with h | ⟨e, hp⟩ | ⟨e, hf⟩
    · exact absurd h hcan
    · unfold handle_photo
      simp [htrue, hp]
    · rcases hpo : env.reply processingText with e' | u
      · unfold handle_photo
        simp [htrue, hpo]
      · cases u
        unfold handle_photo
        simp [htrue, hpo, hf]
        obtain ⟨post, htr, hpost, _⟩ := exceptPath_trace env
          (can_make_request s today uid).2 [Ev.sent processingText]
        refine ⟨exceptPath_store _ _ _, ?_⟩
        rw [htr]
        simpa using hpost

/-- C6: whenever the photo flow dispatches an analysis (quota allowed,
placeholder sent, photo fetched), the user's counter is incremented by
exactly 1 — whatever text, success or embedded error, the analysis
returned — and in the trace no model call follows the single increment
event; in every other flow the counter is not incremented at all. -/
theorem c6_increment_once_after_analysis (env : PhotoEnv) (today uid : Nat)
    (s : Store) :
    ((handle_photo env today uid s).store uid =
      some { normalize (get_user_data s uid).1 today with
             requests_today :=
               (normalize (get_user_data s uid).1 today).requests_today +
                 (if ((can_make_request s today uid).1.1 &&
                      (env.reply processingText).isOk && env.fetchPhoto.isOk) = true
                  then 1 else 0) }) ∧
    (if ((can_make_request s today uid).1.1 &&
         (env.reply processingText).isOk && env.fetchPhoto.isOk) = true
     then ∃ l1 l2, (handle_photo env today uid s).trace = l1 ++ Ev.incr :: l2 ∧
            Ev.incr ∉ l1 ∧ Ev.incr ∉ l2
     else Ev.incr ∉ (handle_photo env today uid s).trace) ∧
    (∀ l1 l2, (handle_photo env today uid s).trace = l1 ++ Ev.incr :: l2 →
      ∀ m, Ev.modelCall m ∉ l2) := by
  by_cases hinv : ((can_make_request s today uid).1.1 &&
      (env.reply processingText).isOk && env.fetchPhoto.isOk) = true
  · rw [Bool.and_eq_true, Bool.and_eq_true] at hinv
    obtain ⟨⟨hcan, hpOk⟩, hfOk⟩ := hinv
    have hp : env.reply processingText = Except.ok () := by
      rcases hx : env.reply processingText with e | u
      · rw [hx] at hpOk
        simp [Except.isOk, Except.toBool] at hpOk
      · cases u
        rfl
    have hf : env.fetchPhoto = Except.ok () := by
      rcases hx : env.fetchPhoto with e | u
      · rw [hx] at hfOk
        simp [Except.isOk, Except.toBool] at hfOk
      · cases u
        rfl
    have hstore := handle_photo_store_invoked env today uid s hcan hp hf
    obtain ⟨R, htr, hR, hRm⟩ := handle_photo_trace_invoked env today uid s hcan hp hf
    have hgud : get_user_data (can_make_request s today uid).2 uid =
        (normalize (get_user_data s uid).1 today, (can_make_request s today uid).2) :=
      get_user_data_found (can_make_request_lookup s today uid)
    obtain ⟨hex, hall⟩ := shape_split htr (by simp) hR hRm
    refine ⟨?_, ?_, hall⟩
    · rw [hstore]
      simp [record_usage, hgud, Store.insert, hcan, hpOk, hfOk]
    · rw [if_pos (by simp [hcan, hpOk, hfOk])]
      exact hex
  · have hcond : ((can_make_request s today uid).1.1 &&
        (env.reply processingText).isOk && env.fetchPhoto.isOk) = false := by
      revert hinv
      cases ((can_make_request s today uid).1.1 &&
        (env.reply processingText).isOk && env.fetchPhoto.isOk) <;> simp
    have hd : (can_make_request s today uid).1.1 = false ∨
        (∃ e, env.reply processingText = Except.error e) ∨
        (∃ e, env.fetchPhoto = Except.error e) := by
      rcases hc : (can_make_request s today uid).1.1 with _ | _
      · exact .inl rfl
      · rcases hx : env.reply processingText with e | u
        · exact .inr (.inl ⟨e, rfl⟩)
        · rcases hy : env.fetchPhoto with e | v
          · exact .inr (.inr ⟨e, rfl⟩)
          · exfalso
            apply hinv
            rw [hc, hx, hy]
            rfl
    obtain ⟨hstore, hnoincr⟩ := handle_photo_not_invoked env today uid s hd
    refine ⟨?_, ?_, no_incr_split hnoincr⟩
    · rw [hstore, can_make_request_lookup, hcond]
      simp
    · rw [if_neg hinv]
      exact hnoincr

/-- Closed instance of `c6_increment_once_after_analysis` on an
all-success run: the trace contains exactly one increment event. -/
theorem c6_increment_once_witness :
    ∃ l1 l2, (handle_photo envOk 0 7 emptyStore).trace = l1 ++ Ev.incr :: l2 ∧
      Ev.incr ∉ l1 ∧ Ev.incr ∉ l2 :=
  (c6_increment_once_after_analysis envOk 0 7 emptyStore).2.1

/-- Counterexample to C9 as stated: when reply sending — one of the
sub-operations the claim quantifies over — fails, the exception escapes
the top-level photo handler (the failing send of the processing
placeholder, and likewise the generic-error reply of the except block,
are not guarded). -/
theorem c9_counterexample :
    (handle_photo envReplyFail 0 7 emptyStore).result =
      Except.error "Timed out" := rfl

/-- C9 (amended): provided every reply send succeeds, then whatever the
outcomes of attachment fetch, analysis and message deletion, no exception
escapes `handle_photo` and the run ends with a sent user-facing reply. -/
theorem c9_no_escape_when_replies_ok (env : PhotoEnv) (today uid : Nat)
    (s : Store) (hrep : ∀ t, env.reply t = Except.ok ()) :
    (handle_photo env today uid s).result = Except.ok () ∧
    ∃ m, (handle_photo env today uid s).trace.getLast? = some (Ev.sent m) := by
  by_cases hcan : (can_make_request s today uid).1.1 = false
  · have hmain : handle_photo env today uid s =
        ⟨Except.ok (), (can_make_request s today uid).2,
         [Ev.sent (can_make_request s today uid).1.2]⟩ := by
      unfold handle_photo
      simp [hcan, hrep]
    rw [hmain]
    exact ⟨rfl, ⟨(can_make_request s today uid).1.2, rfl⟩⟩
  · have htrue : (can_make_request s today uid).1.1 = true := by
      cases hb : (can_make_request s today uid).1.1
      · exact absurd hb hcan
      · rfl
    have hp := hrep processingText
    rcases hf : env.fetchPhoto with e | u
    · have hmain : handle_photo env today uid s =
          exceptPath env (can_make_request s today uid).2
            [Ev.sent processingText] := by
        unfold handle_photo
        simp [htrue, hp, hf]
      rw [hmain]
      exact exceptPath_replies_ok env _ _ (hrep genericErrorMsg)
    · cases u
      rcases hdel : env.deleteMsg with e | v
      · have hmain : handle_photo env today uid s =
            exceptPath env (record_usage (can_make_request s today uid).2 uid).2
              (Ev.sent processingText :: Ev.fetched ::
                (List.map Ev.modelCall (analyze_with_gemini env.gemini).2 ++
                  [Ev.incr])) := by
          unfold handle_photo
          simp [htrue, hp, hf, hdel]
        rw [hmain]
        exact exceptPath_replies_ok env _ _ (hrep genericErrorMsg)
      · cases v
        have hmain : handle_photo env today uid s =
            ⟨Except.ok (), (record_usage (can_make_request s today uid).2 uid).2,
             (Ev.sent processingText :: Ev.fetched ::
               (List.map Ev.modelCall (analyze_with_gemini env.gemini).2 ++
                 [Ev.incr, Ev.deleted])) ++
               [Ev.sent (truncateResponse ((analyze_with_gemini env.gemini).1 ++
                 requestsInfo
                   (record_usage (can_make_request s today uid).2 uid).1.requests_today
                   (record_usage (can_make_request s today uid).2 uid).1.subscription_active))]⟩ := by
          unfold handle_photo
          simp [htrue, hp, hf, hdel, hrep]
        rw [hmain]
        refine ⟨rfl, ⟨truncateResponse ((analyze_with_gemini env.gemini).1 ++
          requestsInfo
            (record_usage (can_make_request s today uid).2 uid).1.requests_today
            (record_usage (can_make_request s today uid).2 uid).1.subscription_active),
          ?_⟩⟩
        exact getLast_append_singleton _ _

/-- Closed instance of `c9_no_escape_when_replies_ok` with the attachment
fetch failing: the handler still returns normally. -/
theorem c9_no_escape_witness :
    (handle_photo envFetchFail 0 7 emptyStore).result = Except.ok () :=
  (c9_no_escape_when_replies_ok envFetchFail 0 7 emptyStore (fun _ => rfl)).1

/-- C10: on a successfully handled photo the sent reply is the truncation
of the analysis-plus-footer text: unchanged when it is at most 4000
characters, otherwise exactly its first 4000 characters followed by the
fixed truncation suffix — so the reply length is bounded by
`4000 + truncSuffix.length`. -/
theorem c10_reply_truncation (env : PhotoEnv) (today uid : Nat) (s : Store)
    (hcan : (can_make_request s today uid).1.1 = true)
    (hrep : ∀ t, env.reply t = Except.ok ())
    (hf : env.fetchPhoto = Except.ok ())
    (hdel : env.deleteMsg = Except.ok ()) :
    (handle_photo env today uid s).trace.getLast? =
      some (Ev.sent (truncateResponse (fullResponseOf env today uid s))) ∧
    ((fullResponseOf env today uid s).length ≤ 4000 →
      truncateResponse (fullResponseOf env today uid s) =
        fullResponseOf env today uid s) ∧
    (4000 < (fullResponseOf env today uid s).length →
      (truncateResponse (fullResponseOf env today uid s)).data =
        (fullResponseOf env today uid s).data.take 4000 ++ truncSuffix.data) ∧
    (truncateResponse (fullResponseOf env today uid s)).length ≤
      4000 + truncSuffix.length := by
  refine ⟨?_, ?_, ?_, ?_⟩
  · have hmain : handle_photo env today uid s =
        ⟨Except.ok (), (record_usage (can_make_request s today uid).2 uid).2,
         (Ev.sent processingText :: Ev.fetched ::
           (List.map Ev.modelCall (analyze_with_gemini env.gemini).2 ++
             [Ev.incr, Ev.deleted])) ++
           [Ev.sent (truncateResponse (fullResponseOf env today uid s))]⟩ := by
      unfold handle_photo fullResponseOf
      simp [hcan, hrep, hf, hdel]
    rw [hmain]
    exact getLast_append_singleton _ _
  · intro h
    unfold truncateResponse
    rw [if_neg (by omega)]
  · intro h
    unfold truncateResponse
    rw [if_pos (by omega)]
    rw [String.data_append]
  · unfold truncateResponse
    split
    · rw [String.length_append, String.length_mk]
      have := List.length_take 4000 (fullResponseOf env today uid s).data
      omega
    · omega

/-- Closed instance of `c10_reply_truncation` on an all-success run. -/
theorem c10_reply_truncation_witness :
    (handle_photo envOk 0 7 emptyStore).trace.getLast? =
      some (Ev.sent (truncateResponse (fullResponseOf envOk 0 7 emptyStore))) :=
  (c10_reply_truncation envOk 0 7 emptyStore rfl (fun _ => rfl) rfl rfl).1

end Bot
